import Mathlib

/-!
Verification of the scheduling and escalation engine of the cpapmaint
repository, as a shallow embedding in Lean 4.

Time model: an instant is an `Int`, the number of minutes since an
arbitrary epoch, in local time with a fixed UTC offset (the source code
uses JavaScript `Date` values and the `date-fns` library, all in local
time; daylight-saving shifts are not modelled).  One calendar day is
1440 minutes; the calendar day of an instant is obtained by floor
division, mirroring `startOfDay` / `isToday` / `toDateString`.

Ambient clocks (`new Date()` in the source) are threaded as an explicit
`now : Int` parameter.  Record identifiers (random UUID strings in the
source) are modelled as `Nat`; freshly generated log ids are modelled
deterministically as the current length of the log table, which is only
used as an opaque token by the engine.
-/

-- ===========================================================================
-- Date helpers (src/lib/date-helpers.ts)
-- ===========================================================================

/-- Calendar day index of an instant: floor division by the 1440 minutes of a
day.  This mirrors the local calendar-date bucketing of `date-fns`
(`startOfDay`, `isToday`). -/
def dayOf (t : Int) : Int := t / 1440

/-- Start of the calendar day containing `t` (date-fns `startOfDay`). -/
def startOfDayMin (t : Int) : Int := 1440 * dayOf t

/-- date-fns `isToday(d)` evaluated with clock `now`: `d` falls on the same
calendar date as `now`. -/
def isToday (d now : Int) : Bool := decide (dayOf d = dayOf now)

/-- date-fns `differenceInDays(a, b)`: the number of complete 24-hour periods
between the two instants, rounded toward zero (without DST adjustments this
is exactly what `date-fns` computes). -/
def differenceInDays (a b : Int) : Int :=
  if b ≤ a then (((a - b).toNat / 1440 : Nat) : Int)
  else -((((b - a).toNat / 1440 : Nat) : Int))

/-- Source `isOverdue(dueDate)` with the ambient clock made explicit:
`differenceInDays(now, dueDate) > 0`. -/
def isOverdue (dueDate now : Int) : Bool := decide (0 < differenceInDays now dueDate)

/-- Source `isDueToday(dueDate)`: the due date falls on today's calendar
date. -/
def isDueToday (dueDate now : Int) : Bool := isToday dueDate now

/-- Source `isUpcoming(dueDate, withinDays)`: strictly after `now` and
strictly before `now + withinDays` days. -/
def isUpcoming (dueDate now withinDays : Int) : Bool :=
  decide (now < dueDate) && decide (dueDate < now + withinDays * 1440)

/-- Source `setTime(date, "HH:MM")`: same calendar day, with the time of day
replaced by `h` hours and `m` minutes (seconds and milliseconds zeroed). -/
def setTime (d h m : Int) : Int := startOfDayMin d + h * 60 + m

/-- Hours-overdue magnitude used by the due-item selector:
`max(0, floor((now - dueDate) in hours))`. -/
def hoursOverdueAt (now dueDate : Int) : Int := max 0 ((now - dueDate) / 60)

/-- Loop condition of `calculateNextDueDate`'s while loop:
`isBefore(nextDue, now) || isToday(nextDue)`. -/
def shouldAdvance (now nextDue : Int) : Bool :=
  decide (nextDue < now) || isToday nextDue now

/-- The while loop of `calculateNextDueDate`, written with explicit fuel: the
source loop `while (isBefore(nextDue, now) || isToday(nextDue)) nextDue =
addDays(nextDue, frequency)` does not terminate for `frequency ≤ 0` (when the
condition initially holds), so the embedding returns `none` when the fuel runs
out. -/
def nextDueLoop (now frequency : Int) : Nat → Int → Option Int
  | 0, _ => none
  | fuel + 1, nextDue =>
    if shouldAdvance now nextDue then
      nextDueLoop now frequency fuel (nextDue + frequency * 1440)
    else some nextDue

inductive ScheduleUnit where
  | days
  | uses
deriving DecidableEq, Repr

/-- Source `calculateNextDueDate(originalDueDate, frequency, unit)` with the
ambient clock explicit.  For `uses` the original due date is returned
unchanged; for `days` the while loop advances by `frequency` days until the
candidate is neither before `now` nor on today's date.  The fuel supplied to
the loop is one more than the distance (in minutes) from the original due date
to the end of today, which `nextDueLoop_spec` proves sufficient whenever
`frequency ≥ 1`; an exhausted fuel (`none`) models the source's
non-termination. -/
def calculateNextDueDate (originalDueDate frequency : Int) (unit : ScheduleUnit)
    (now : Int) : Option Int :=
  match unit with
  | .uses => some originalDueDate
  | .days =>
    nextDueLoop now frequency (((dayOf now + 1) * 1440 - originalDueDate).toNat + 1)
      originalDueDate

/-- Source `calculateInitialDueDate(frequency, unit, notificationTime?)`:
`now + frequency` days, with the time of day overridden when a notification
time is configured (calendar units only). -/
def calculateInitialDueDate (frequency : Int) (unit : ScheduleUnit)
    (notificationTime : Option (Int × Int)) (now : Int) : Int :=
  if unit = ScheduleUnit.uses then now + frequency * 1440
  else
    match notificationTime with
    | some t => setTime (now + frequency * 1440) t.1 t.2
    | none => now + frequency * 1440

/-- JavaScript `Math.round(num/den)` for non-negative integers `num` and
positive `den` (round half up). -/
def jsRound (num den : Nat) : Nat := (2 * num + den) / (2 * den)

/-- Source `calculateCompliancePercentage(completedCount, requiredCount)`
from date-helpers: 100 when nothing is required, otherwise the rounded
percentage (this variant does not cap at 100). -/
def calculateCompliancePercentage (completedCount requiredCount : Nat) : Nat :=
  if requiredCount = 0 then 100 else jsRound (100 * completedCount) requiredCount

-- ===========================================================================
-- Exit condition of the advancing loop
-- ===========================================================================

/-- The state in which the advancing loop stops: the candidate is strictly in
the future and does not fall on today's calendar date. -/
def strictlyFutureNotToday (now d : Int) : Prop := now < d ∧ dayOf d ≠ dayOf now

lemma shouldAdvance_false_iff (now d : Int) :
    shouldAdvance now d = false ↔ strictlyFutureNotToday now d := by
  simp only [shouldAdvance, isToday, strictlyFutureNotToday, dayOf,
    Bool.or_eq_false_iff, decide_eq_false_iff_not]
  omega

lemma lt_day_boundary (t : Int) : t < (dayOf t + 1) * 1440 := by
  simp only [dayOf]; omega

/-- Characterization of the while loop of `calculateNextDueDate`: with
positive frequency and enough fuel it returns the first candidate
`d + k·frequency` days that is strictly in the future and not on today's
date. -/
lemma nextDueLoop_spec (now frequency : Int) (hf : 1 ≤ frequency) :
    ∀ (fuel : Nat) (d : Int), ((dayOf now + 1) * 1440 - d).toNat < fuel →
    ∃ k : Nat,
      nextDueLoop now frequency fuel d = some (d + (k : Int) * (frequency * 1440)) ∧
      strictlyFutureNotToday now (d + (k : Int) * (frequency * 1440)) ∧
      ∀ j : Nat, j < k →
        ¬ strictlyFutureNotToday now (d + (j : Int) * (frequency * 1440)) := by
  intro fuel
  induction fuel with
  | zero => intro d h; exact absurd h (by omega)
  | succ n ih =>
    intro d h
    by_cases hc : shouldAdvance now d = true
    · have hc' : d < now ∨ dayOf d = dayOf now := by
        simpa only [shouldAdvance, isToday, Bool.or_eq_true, decide_eq_true_eq] using hc
      have hdlt : d < (dayOf now + 1) * 1440 := by
        have h2 := lt_day_boundary d
        rcases hc' with hlt | heq
        · exact lt_trans hlt (lt_day_boundary now)
        · rw [heq] at h2; exact h2
      have hm : ((dayOf now + 1) * 1440 - (d + frequency * 1440)).toNat < n := by
        omega
      obtain ⟨k, hk, hgood, hmin⟩ := ih (d + frequency * 1440) hm
      have harith : d + ((k + 1 : Nat) : Int) * (frequency * 1440) =
          d + frequency * 1440 + (k : Int) * (frequency * 1440) := by
        push_cast; ring
      refine ⟨k + 1, ?_, ?_, ?_⟩
      · rw [nextDueLoop, if_pos hc, harith]
        exact hk
      · rw [harith]; exact hgood
      · intro j hj
        match j with
        | 0 =>
          intro hgood0
          have hfalse := (shouldAdvance_false_iff now d).mpr (by simpa using hgood0)
          rw [hc] at hfalse
          exact absurd hfalse (by simp)
        | j' + 1 =>
          have harith' : d + ((j' + 1 : Nat) : Int) * (frequency * 1440) =
              d + frequency * 1440 + (j' : Int) * (frequency * 1440) := by
            push_cast; ring
          rw [harith']
          exact hmin j' (by omega)
    · have hcf : shouldAdvance now d = false := by
        revert hc; cases shouldAdvance now d <;> simp
      refine ⟨0, ?_, ?_, ?_⟩
      · rw [nextDueLoop, if_neg (by rw [hcf]; exact Bool.false_ne_true)]
        norm_num
      · simpa using (shouldAdvance_false_iff now d).mp hcf
      · intro j hj; exact absurd hj (by omega)

lemma calculateNextDueDate_days_spec (originalDueDate now frequency : Int)
    (hf : 1 ≤ frequency) :
    ∃ k : Nat,
      calculateNextDueDate originalDueDate frequency ScheduleUnit.days now =
        some (originalDueDate + (k : Int) * (frequency * 1440)) ∧
      strictlyFutureNotToday now (originalDueDate + (k : Int) * (frequency * 1440)) ∧
      ∀ j : Nat, j < k →
        ¬ strictlyFutureNotToday now (originalDueDate + (j : Int) * (frequency * 1440)) := by
  have h := nextDueLoop_spec now frequency hf
    (((dayOf now + 1) * 1440 - originalDueDate).toNat + 1) originalDueDate (by omega)
  simpa [calculateNextDueDate] using h

lemma calculateNextDueDate_isSome (originalDueDate frequency : Int)
    (unit : ScheduleUnit) (now : Int) (hf : 1 ≤ frequency) :
    ∃ r, calculateNextDueDate originalDueDate frequency unit now = some r := by
  cases unit with
  | uses => exact ⟨originalDueDate, rfl⟩
  | days =>
    obtain ⟨k, hk, -, -⟩ := calculateNextDueDate_days_spec originalDueDate now frequency hf
    exact ⟨_, hk⟩

-- ===========================================================================
-- Data model (src/lib/db.ts)
-- ===========================================================================

inductive ComponentCategory where
  | mask_cushion
  | mask_frame
  | tubing
  | water_chamber
  | filter
  | other
deriving DecidableEq, Repr

inductive TrackingMode where
  | calendar
  | usage
  | hybrid
deriving DecidableEq, Repr

inductive ReminderStrategy where
  | gentle
  | standard
  | urgent
deriving DecidableEq, Repr

inductive EscalationStrategy where
  | single_daily
  | multiple_daily
  | increasing_urgency
deriving DecidableEq, Repr

inductive LogSource where
  | user
  | system
deriving DecidableEq, Repr

structure Component where
  id : Nat
  name : String
  category : ComponentCategory
  tracking_mode : TrackingMode
  usage_count : Int
  is_active : Bool
  created_at : Int
  notes : Option String
deriving DecidableEq, Repr

/-- A maintenance action record.  The source stores `notification_time` as an
"HH:MM" string; it is modelled as the parsed pair of hours and minutes
(`parseTime` in the source). -/
structure MaintenanceAction where
  id : Nat
  component_id : Nat
  action_type : String
  description : String
  schedule_frequency : Int
  schedule_unit : ScheduleUnit
  notification_time : Option (Int × Int)
  reminder_strategy : ReminderStrategy
  last_completed : Option Int
  next_due : Option Int
  instructions : Option String
deriving DecidableEq, Repr

structure MaintenanceLog where
  id : Nat
  component_id : Nat
  action_id : Nat
  completed_at : Int
  was_overdue : Bool
  notes : Option String
  logged_by : LogSource
deriving DecidableEq, Repr

structure NotificationConfig where
  id : Nat
  action_id : Nat
  enabled : Bool
  time : Int × Int
  escalation_strategy : EscalationStrategy
  escalation_intervals : List Int
deriving DecidableEq, Repr

/-- The persistent store (Dexie tables), modelled as four lists. -/
structure DB where
  components : List Component
  actions : List MaintenanceAction
  logs : List MaintenanceLog
  configs : List NotificationConfig
deriving DecidableEq, Repr

/-- dbOperations.maintenanceActions.getById. -/
def findAction (actions : List MaintenanceAction) (actionId : Nat) :
    Option MaintenanceAction :=
  actions.find? (fun a => decide (a.id = actionId))

/-- dbOperations.components.getById. -/
def findComponent (components : List Component) (componentId : Nat) :
    Option Component :=
  components.find? (fun c => decide (c.id = componentId))

/-- dbOperations.maintenanceActions.update: Dexie patches the record with the
given key; a missing key is a silent no-op. -/
def updateAction (actions : List MaintenanceAction) (actionId : Nat)
    (patch : MaintenanceAction → MaintenanceAction) : List MaintenanceAction :=
  actions.map (fun a => if a.id = actionId then patch a else a)

/-- dbOperations.components.incrementUsage: add `increment` to the usage
counter if the component exists, otherwise do nothing. -/
def incrementUsage (components : List Component) (componentId : Nat)
    (increment : Int) : List Component :=
  match findComponent components componentId with
  | none => components
  | some _ =>
    components.map (fun c =>
      if c.id = componentId then { c with usage_count := c.usage_count + increment }
      else c)

-- ===========================================================================
-- Schedule engine (src/lib/scheduler.ts, unnamed/part_002)
-- ===========================================================================

/-- The `if (action.notification_time) { setTime(...) }` stamping step used by
complete and skip. -/
def applyNotificationTime (notificationTime : Option (Int × Int)) (d : Int) : Int :=
  match notificationTime with
  | some t => setTime d t.1 t.2
  | none => d

/-- Source `completeMaintenanceAction(actionId, completedAt, notes?)`, ambient
clock explicit.  The result pairs the final store state with the thrown
not-found error or the returned `(logId, nextDueDate)`.  The outer `Option` is
`none` exactly when the embedded while loop of `calculateNextDueDate` runs out
of fuel (the source would not terminate). -/
def completeMaintenanceAction (db : DB) (actionId : Nat) (completedAt : Int)
    (notes : Option String) (now : Int) :
    Option (DB × Except String (Nat × Int)) :=
  match findAction db.actions actionId with
  | none => some (db, Except.error s!"Maintenance action {actionId} not found")
  | some action =>
    let wasOverdue := match action.next_due with
      | some d => isOverdue d now
      | none => false
    let logId := db.logs.length
    let newLog : MaintenanceLog :=
      { id := logId, component_id := action.component_id, action_id := actionId,
        completed_at := completedAt, was_overdue := wasOverdue, notes := notes,
        logged_by := LogSource.user }
    let db1 : DB := { db with logs := db.logs ++ [newLog] }
    let originalDueDate := action.next_due.getD completedAt
    match calculateNextDueDate originalDueDate action.schedule_frequency
        action.schedule_unit now with
    | none => none
    | some nextDueDate =>
      let finalDue := applyNotificationTime action.notification_time nextDueDate
      some ({ db1 with
                actions := updateAction db1.actions actionId (fun a =>
                  { a with last_completed := some completedAt,
                           next_due := some finalDue }) },
            Except.ok (logId, finalDue))

/-- Source `skipMaintenanceAction(actionId)`: reschedule from the original due
date without writing a log. -/
def skipMaintenanceAction (db : DB) (actionId : Nat) (now : Int) :
    Option (DB × Except String Int) :=
  match findAction db.actions actionId with
  | none => some (db, Except.error s!"Maintenance action {actionId} not found")
  | some action =>
    let originalDueDate := action.next_due.getD now
    match calculateNextDueDate originalDueDate action.schedule_frequency
        action.schedule_unit now with
    | none => none
    | some nextDueDate =>
      let finalNextDue := applyNotificationTime action.notification_time nextDueDate
      some ({ db with
                actions := updateAction db.actions actionId (fun a =>
                  { a with next_due := some finalNextDue }) },
            Except.ok finalNextDue)

/-- Source `snoozeMaintenanceAction(actionId, hours)`: overwrite `next_due`
with `now + hours`. -/
def snoozeMaintenanceAction (db : DB) (actionId : Nat) (hours : Int) (now : Int) :
    DB × Except String Int :=
  match findAction db.actions actionId with
  | none => (db, Except.error s!"Maintenance action {actionId} not found")
  | some _ =>
    let snoozeUntil := now + hours * 60
    ({ db with
         actions := updateAction db.actions actionId (fun a =>
           { a with next_due := some snoozeUntil }) },
     Except.ok snoozeUntil)

/-- Source `initializeMaintenanceAction(actionId)`: set the first due date,
idempotent when `next_due` is already present. -/
def initializeMaintenanceAction (db : DB) (actionId : Nat) (now : Int) :
    DB × Except String MaintenanceAction :=
  match findAction db.actions actionId with
  | none => (db, Except.error s!"Maintenance action {actionId} not found")
  | some action =>
    match action.next_due with
    | some _ => (db, Except.ok action)
    | none =>
      let initialDueDate := calculateInitialDueDate action.schedule_frequency
        action.schedule_unit action.notification_time now
      ({ db with
           actions := updateAction db.actions actionId (fun a =>
             { a with next_due := some initialDueDate }) },
       Except.ok { action with next_due := some initialDueDate })

/-- Source `rescheduleMaintenanceAction(actionId, newDueDate)`: a bare store
update with no existence check (a missing id is a silent no-op at the Dexie
layer, so the call neither fails nor writes). -/
def rescheduleMaintenanceAction (db : DB) (actionId : Nat) (newDueDate : Int) : DB :=
  { db with
      actions := updateAction db.actions actionId (fun a =>
        { a with next_due := some newDueDate }) }

/-- Source `updateComponentUsage(componentId, usageIncrement)`: increment the
usage counter first, then force `next_due = now` for every usage-based action
whose threshold the counter has reached, unless the action is already due. -/
def updateComponentUsage (db : DB) (componentId : Nat) (usageIncrement : Int)
    (now : Int) : DB × Except String Unit :=
  let db1 : DB := { db with
    components := incrementUsage db.components componentId usageIncrement }
  match findComponent db1.components componentId with
  | none => (db1, Except.error s!"Component {componentId} not found")
  | some component =>
    let actions := db1.actions.filter (fun a => decide (a.component_id = componentId))
    let usageBasedActions := actions.filter (fun a =>
      decide (a.schedule_unit = ScheduleUnit.uses))
    let newActions := usageBasedActions.foldl (fun acts action =>
      if action.schedule_frequency ≤ component.usage_count then
        match action.next_due with
        | none => updateAction acts action.id (fun a => { a with next_due := some now })
        | some d =>
          if now < d then
            updateAction acts action.id (fun a => { a with next_due := some now })
          else acts
      else acts) db1.actions
    ({ db1 with actions := newActions }, Except.ok ())

/-- Filter of `getActionsNeedingAttention`: the action has a due date and it
is at or before `now`. -/
def needsAttention (action : MaintenanceAction) (now : Int) : Bool :=
  match action.next_due with
  | none => false
  | some d => decide (d ≤ now)

/-- Comparator of `getActionsNeedingAttention` as a boolean "comes no later
than" relation: overdue actions first, then ascending due date; an action
without a due date compares as a tie (the source comparator returns 0). -/
def attentionLE (now : Int) (a b : MaintenanceAction) : Bool :=
  match a.next_due, b.next_due with
  | some da, some dbv =>
    let aBucket : Nat := if isOverdue da now then 0 else 1
    let bBucket : Nat := if isOverdue dbv now then 0 else 1
    decide (aBucket < bBucket) || (decide (aBucket = bBucket) && decide (da ≤ dbv))
  | _, _ => true

/-- Stable insertion of `x` into a sorted list: `x` goes before the first
element that does not compare below it. -/
def insertIntoSorted {α : Type} (le : α → α → Bool) (x : α) : List α → List α
  | [] => [x]
  | y :: ys => if le x y then x :: y :: ys else y :: insertIntoSorted le x ys

/-- Stable sort by a boolean comparator, modelling JavaScript's stable
`Array.prototype.sort`. -/
def insertionSortBy {α : Type} (le : α → α → Bool) : List α → List α
  | [] => []
  | x :: xs => insertIntoSorted le x (insertionSortBy le xs)

/-- Source `getActionsNeedingAttention()`: all actions with a due date at or
before `now`, sorted overdue-first then by ascending due date. -/
def getActionsNeedingAttention (db : DB) (now : Int) : List MaintenanceAction :=
  insertionSortBy (attentionLE now) (db.actions.filter (fun a => needsAttention a now))

-- ===========================================================================
-- Compliance analytics (useCompliancePercentage in src/lib/store.ts)
-- ===========================================================================

/-- The pure computation inside the `useCompliancePercentage(days)` hook:
filter the logs to the trailing window, sum the required occurrences of every
calendar action with a positive frequency, and return the rounded percentage
capped at 100 (100 when nothing is required). -/
def useCompliancePercentage (days : Nat) (logs : List MaintenanceLog)
    (actions : List MaintenanceAction) (now : Int) : Nat :=
  let startDate := now - (days : Int) * 1440
  let logsInRange := logs.filter (fun log =>
    decide (startDate ≤ log.completed_at) && decide (log.completed_at ≤ now))
  let totalRequired := actions.foldl (fun acc action =>
    if action.schedule_unit = ScheduleUnit.days ∧ 0 < action.schedule_frequency then
      acc + max 1 (days / action.schedule_frequency.toNat)
    else acc) 0
  let totalCompleted := logsInRange.length
  if totalRequired = 0 then 100
  else min 100 (jsRound (100 * totalCompleted) totalRequired)

/-- The spec's required count for the compliance window: the sum over
calendar-unit actions of `max(1, floor(N / frequency))`.  This definition
follows the specification text and is compared against the hook's own
computation. -/
def requiredCountSpec (days : Nat) (actions : List MaintenanceAction) : Nat :=
  actions.foldl (fun acc action =>
    if action.schedule_unit = ScheduleUnit.days then
      acc + max 1 (days / action.schedule_frequency.toNat)
    else acc) 0

-- ===========================================================================
-- Notification tracking and escalation (src/lib/notifications.ts and the
-- notification scheduler in src/lib/notification-scheduler.ts)
-- ===========================================================================

/-- A record that a reminder notification was shown (`ShownNotificationRecord`
in the source, with `shownAt` an ISO timestamp). -/
structure ShownNotificationRecord where
  actionId : Nat
  shownAt : Int
  reminderCount : Nat
deriving DecidableEq, Repr

/-- Source `getShownNotifications()`: the stored records filtered to those
shown on today's calendar date. -/
def getShownNotifications (records : List ShownNotificationRecord) (now : Int) :
    List ShownNotificationRecord :=
  records.filter (fun r => isToday r.shownAt now)

/-- Update-or-append step of `recordNotificationShown`: the first record for
the action is overwritten with the new count and timestamp, otherwise a new
record is pushed at the end. -/
def setFirstRecord (actionId : Nat) (now : Int) (count : Nat) :
    List ShownNotificationRecord → List ShownNotificationRecord
  | [] => [{ actionId := actionId, shownAt := now, reminderCount := count }]
  | r :: rs =>
    if r.actionId = actionId then
      { r with reminderCount := count, shownAt := now } :: rs
    else r :: setFirstRecord actionId now count rs

/-- Source `recordNotificationShown(actionId, reminderCount)`: works on the
records already filtered to today (older records are dropped on write). -/
def recordNotificationShown (records : List ShownNotificationRecord) (now : Int)
    (actionId : Nat) (count : Nat) : List ShownNotificationRecord :=
  setFirstRecord actionId now count (getShownNotifications records now)

/-- Source `getReminderCount(actionId)`: reminder count of today's record for
the action, 0 when there is none. -/
def getReminderCount (records : List ShownNotificationRecord) (now : Int)
    (actionId : Nat) : Nat :=
  match (getShownNotifications records now).find? (fun r => decide (r.actionId = actionId)) with
  | some r => r.reminderCount
  | none => 0

/-- A due item produced by `getDueItemsForNotification` (action joined with
its component and optional notification config, plus the overdue flag and
magnitude). -/
structure DueItem where
  action : MaintenanceAction
  component : Component
  notificationConfig : Option NotificationConfig
  isOverdue : Bool
  hoursOverdue : Int
deriving DecidableEq, Repr

/-- Source `getDefaultEscalationStrategy(reminderStrategy)`. -/
def getDefaultEscalationStrategy : ReminderStrategy → EscalationStrategy
  | .gentle => .single_daily
  | .standard => .multiple_daily
  | .urgent => .increasing_urgency

/-- Source `getDefaultEscalationIntervals(reminderStrategy)`. -/
def getDefaultEscalationIntervals : ReminderStrategy → List Int
  | .gentle => [0]
  | .standard => [0, 4, 8]
  | .urgent => [0, 2, 4, 8, 12]

/-- Effective strategy resolution in `shouldShowReminder`: the notification
config's strategy when a config exists, otherwise the default derived from the
action's reminder strategy. -/
def effectiveEscalationStrategy (item : DueItem) : EscalationStrategy :=
  match item.notificationConfig with
  | some nc => nc.escalation_strategy
  | none => getDefaultEscalationStrategy item.action.reminder_strategy

/-- Effective interval list resolution in `shouldShowReminder`. -/
def effectiveEscalationIntervals (item : DueItem) : List Int :=
  match item.notificationConfig with
  | some nc => nc.escalation_intervals
  | none => getDefaultEscalationIntervals item.action.reminder_strategy

/-- Source `shouldShowReminder(dueItem, currentReminderCount)`. -/
def shouldShowReminder (item : DueItem) (currentReminderCount : Nat) : Bool :=
  match effectiveEscalationStrategy item with
  | .single_daily => decide (currentReminderCount = 0)
  | .multiple_daily =>
    (effectiveEscalationIntervals item).any (fun interval =>
      decide (interval ≤ item.hoursOverdue) &&
      decide (currentReminderCount ≤ (effectiveEscalationIntervals item).indexOf interval))
  | .increasing_urgency =>
    if currentReminderCount = 0 then true
    else if 4 ≤ item.hoursOverdue ∧ currentReminderCount = 1 then true
    else if 8 ≤ item.hoursOverdue ∧ currentReminderCount = 2 then true
    else if 24 ≤ item.hoursOverdue ∧ currentReminderCount = 3 then true
    else false

/-- One pass of the `for (const item of dueItems)` loop in `checkAndNotify`.
Each item carries a flag saying whether the platform actually displayed the
notification (`showNotification` returns null when notifications are blocked);
only a displayed notification is recorded and counted.  Returns the list of
action ids for which a notification fired, in order, together with the updated
shown-notification records. -/
def checkAndNotifyItems (now : Int) :
    List (DueItem × Bool) → List ShownNotificationRecord →
    List Nat × List ShownNotificationRecord
  | [], records => ([], records)
  | (item, shown) :: rest, records =>
    let currentReminderCount := getReminderCount records now item.action.id
    if shouldShowReminder item currentReminderCount then
      if shown then
        let records2 := recordNotificationShown records now item.action.id
          (currentReminderCount + 1)
        let step := checkAndNotifyItems now rest records2
        (item.action.id :: step.1, step.2)
      else checkAndNotifyItems now rest records
    else checkAndNotifyItems now rest records

/-- A sequence of `checkAndNotify` cycles: each cycle runs at its own instant
over whatever due-item list the selector produced at that moment, threading
the persistent shown-notification records. -/
def runCheckCycles :
    List (Int × List (DueItem × Bool)) → List ShownNotificationRecord →
    List Nat × List ShownNotificationRecord
  | [], records => ([], records)
  | (t, items) :: rest, records =>
    let step := checkAndNotifyItems t items records
    let next := runCheckCycles rest step.2
    (step.1 ++ next.1, next.2)

-- ===========================================================================
-- Derived predicates and concrete example data used by the verification
-- ===========================================================================

/-- Ordering criterion stated by the specification for the needing-attention
list: overdue items before due-today items, larger hours-overdue first within
a bucket, ties broken by ascending due date. -/
def attentionPriority (now : Int) (a b : MaintenanceAction) : Prop :=
  ∀ da dbv : Int, a.next_due = some da → b.next_due = some dbv →
    (isOverdue da now = true ∧ isOverdue dbv now = false) ∨
    (isOverdue da now = isOverdue dbv now ∧
      (hoursOverdueAt now dbv < hoursOverdueAt now da ∨
        (hoursOverdueAt now da = hoursOverdueAt now dbv ∧ da ≤ dbv)))

/-- Reminder count stored in the first matching record of a list, 0 when there
is none (the lookup step shared by `getReminderCount`). -/
def foundCount (records : List ShownNotificationRecord) (actionId : Nat) : Nat :=
  match records.find? (fun r => decide (r.actionId = actionId)) with
  | some r => r.reminderCount
  | none => 0

/-- Reminder count for an action on a given calendar day, as read back by
`getReminderCount` on any instant of that day. -/
def reminderCountOnDay (records : List ShownNotificationRecord) (day : Int)
    (actionId : Nat) : Nat :=
  foundCount (records.filter (fun r => decide (dayOf r.shownAt = day))) actionId

/-- Example action: a daily calendar task, due at the epoch, no notification
time. -/
def exActionDaily : MaintenanceAction :=
  { id := 0, component_id := 0, action_type := "Daily Rinse", description := "",
    schedule_frequency := 1, schedule_unit := ScheduleUnit.days,
    notification_time := none, reminder_strategy := ReminderStrategy.gentle,
    last_completed := none, next_due := some 0, instructions := none }

/-- Example store holding just `exActionDaily`. -/
def exDbDaily : DB := { components := [], actions := [exActionDaily], logs := [], configs := [] }

/-- Example action overdue by five days (due at minute -7200), frequency one
day. -/
def exActionStale : MaintenanceAction :=
  { exActionDaily with next_due := some (-7200) }

/-- Example store holding just `exActionStale`. -/
def exDbStale : DB := { components := [], actions := [exActionStale], logs := [], configs := [] }

/-- Example component that has been soft-deleted (`is_active = false`). -/
def exComponentInactive : Component :=
  { id := 0, name := "Tubing", category := ComponentCategory.tubing,
    tracking_mode := TrackingMode.calendar, usage_count := 0, is_active := false,
    created_at := 0, notes := none }

/-- Example store pairing a due action with an inactive owning component. -/
def exDbInactive : DB :=
  { components := [exComponentInactive], actions := [exActionDaily], logs := [],
    configs := [] }

/-- Example active component used by the escalation witness. -/
def exComponentActive : Component :=
  { exComponentInactive with is_active := true }

/-- Example due item with the gentle reminder strategy and no notification
config, as consumed by `checkAndNotify`. -/
def exDueItemGentle : DueItem :=
  { action := exActionDaily, component := exComponentActive,
    notificationConfig := none, isOverdue := true, hoursOverdue := 5 }

-- ===========================================================================
-- Helper lemmas about the date predicates
-- ===========================================================================

lemma isOverdue_eq_true_iff (dueDate now : Int) :
    isOverdue dueDate now = true ↔ 1440 ≤ now - dueDate := by
  simp only [isOverdue, differenceInDays, decide_eq_true_eq]
  split <;> omega

lemma hoursOverdueAt_antitone {now da dbv : Int} (h : da ≤ dbv) :
    hoursOverdueAt now dbv ≤ hoursOverdueAt now da := by
  simp only [hoursOverdueAt]
  exact max_le_max le_rfl (by omega)

lemma updateAction_not_found (actions : List MaintenanceAction) (actionId : Nat)
    (patch : MaintenanceAction → MaintenanceAction)
    (h : findAction actions actionId = none) :
    updateAction actions actionId patch = actions := by
  have h' := List.find?_eq_none.mp h
  clear h
  unfold updateAction
  induction actions with
  | nil => rfl
  | cons a as ih =>
    have ha : ¬ a.id = actionId := by
      have := h' a (by simp)
      simpa using this
    simp only [List.map_cons, if_neg ha]
    rw [ih (fun x hx => h' x (List.mem_cons_of_mem a hx))]

-- ===========================================================================
-- C4: what `isOverdue` actually tests
-- ===========================================================================

/-- C4 (counterexample): a due date of yesterday 23:00 (minute -60) is
strictly before the start of today when `now` is today 10:00 (minute 600),
yet `isOverdue` returns `false`, because fewer than 24 hours have elapsed.
This refutes the claim that `isOverdue` is equivalent to "due date strictly
before the start of today's calendar day". -/
theorem isOverdue_startOfToday_cex :
    isOverdue (-60) 600 = false ∧ ((-60 : Int) < startOfDayMin 600) := by
  constructor
  · rfl
  · decide

/-- C4 (amended): for every due date and every `now`, `isOverdue` returns
`true` if and only if at least one full 24-hour period (1440 minutes) has
elapsed since the due date — not if and only if the due date precedes the
start of today. -/
theorem isOverdue_iff_full_day_elapsed (dueDate now : Int) :
    isOverdue dueDate now = true ↔ 1440 ≤ now - dueDate :=
  isOverdue_eq_true_iff dueDate now

-- ===========================================================================
-- C3: mutual exclusivity of the status predicates
-- ===========================================================================

/-- C3 (counterexample): a due date of today 23:00 (minute 1380) seen at
today 10:00 (minute 600) satisfies both `isDueToday` and `isUpcoming(7)`
while not being overdue, so "exactly one of overdue / due-today / upcoming /
none-of-the-above" fails: two of the predicates hold at once. -/
theorem duePredicates_not_exclusive_cex :
    isDueToday 1380 600 = true ∧ isUpcoming 1380 600 7 = true ∧
    isOverdue 1380 600 = false := by
  refine ⟨by decide, by decide, rfl⟩

/-- C3 (amended): `isOverdue` is mutually exclusive with `isDueToday` and
with `isUpcoming`, for every window; the failure of full pairwise
exclusivity is confined to `isDueToday` and `isUpcoming`, which can hold
simultaneously (a due date later today). -/
theorem isOverdue_excludes_dueToday_and_upcoming (dueDate now withinDays : Int)
    (h : isOverdue dueDate now = true) :
    isDueToday dueDate now = false ∧ isUpcoming dueDate now withinDays = false := by
  rw [isOverdue_eq_true_iff] at h
  constructor
  · simp only [isDueToday, isToday, dayOf, decide_eq_false_iff_not]
    omega
  · simp only [isUpcoming, Bool.and_eq_false_iff, decide_eq_false_iff_not]
    left
    omega

/-- C3 (witness): the exclusivity theorem applied at a concrete overdue
date. -/
theorem isOverdue_excludes_dueToday_and_upcoming_witness :
    isOverdue (-2880) 0 = true ∧
    (isDueToday (-2880) 0 = false ∧ isUpcoming (-2880) 0 7 = false) :=
  ⟨by decide, isOverdue_excludes_dueToday_and_upcoming (-2880) 0 7 (by decide)⟩

-- ===========================================================================
-- C1: drift prevention rule of calculateNextDueDate
-- ===========================================================================

/-- C1: for every original due date, every frequency ≥ 1, and unit `days`,
`calculateNextDueDate` evaluated at `now` returns
`originalDue + k·frequency` days for the smallest `k ≥ 0` whose result is
strictly in the future and does not fall on today's calendar date (a result
landing on today is advanced again).  Since the result depends only on the
original due date, it is in particular never `completionTime + frequency`. -/
theorem calculateNextDueDate_drift_rule (originalDueDate frequency now : Int)
    (hf : 1 ≤ frequency) :
    ∃ k : Nat,
      calculateNextDueDate originalDueDate frequency ScheduleUnit.days now =
        some (originalDueDate + (k : Int) * (frequency * 1440)) ∧
      (now < originalDueDate + (k : Int) * (frequency * 1440) ∧
        dayOf (originalDueDate + (k : Int) * (frequency * 1440)) ≠ dayOf now) ∧
      ∀ j : Nat, j < k →
        ¬(now < originalDueDate + (j : Int) * (frequency * 1440) ∧
          dayOf (originalDueDate + (j : Int) * (frequency * 1440)) ≠ dayOf now) := by
  simpa only [strictlyFutureNotToday] using
    calculateNextDueDate_days_spec originalDueDate now frequency hf

/-- C1 (witness): the drift rule applied with due date 0, frequency 1, and
`now` at minute 2000 of day 1; the computed next due date is minute 2880
(start of day 2). -/
theorem calculateNextDueDate_drift_rule_witness :
    (1 : Int) ≤ 1 ∧
    ∃ k : Nat,
      calculateNextDueDate 0 1 ScheduleUnit.days 2000 =
        some (0 + (k : Int) * (1 * 1440)) ∧
      (2000 < 0 + (k : Int) * (1 * 1440) ∧
        dayOf (0 + (k : Int) * (1 * 1440)) ≠ dayOf 2000) ∧
      ∀ j : Nat, j < k →
        ¬(2000 < 0 + (j : Int) * (1 * 1440) ∧
          dayOf (0 + (j : Int) * (1 * 1440)) ≠ dayOf 2000) :=
  ⟨le_refl 1, calculateNextDueDate_drift_rule 0 1 2000 (le_refl 1)⟩

-- ===========================================================================
-- C10: termination of calculateNextDueDate
-- ===========================================================================

/-- C10: with unit `days` and frequency ≥ 1 the advancing loop of
`calculateNextDueDate` terminates (the fuel chosen in the definition is
sufficient, so the function is total there); without the precondition
termination is not guaranteed: with frequency 0 and a past due date the loop
never stops, i.e. it exhausts every fuel. -/
theorem calculateNextDueDate_termination :
    (∀ (originalDueDate now frequency : Int), 1 ≤ frequency →
      ∃ r, calculateNextDueDate originalDueDate frequency ScheduleUnit.days now = some r) ∧
    (∀ fuel : Nat, nextDueLoop 600 0 fuel 0 = none) := by
  constructor
  · intro originalDueDate now frequency hf
    exact calculateNextDueDate_isSome originalDueDate frequency ScheduleUnit.days now hf
  · intro fuel
    induction fuel with
    | zero => rfl
    | succ n ih =>
      have hc : shouldAdvance 600 0 = true := by decide
      rw [nextDueLoop, if_pos hc]
      simpa using ih

/-- C10 (witness): termination at frequency 1 together with a concrete
exhausted fuel at frequency 0. -/
theorem calculateNextDueDate_termination_witness :
    (1 : Int) ≤ 1 ∧
    (∃ r, calculateNextDueDate 0 1 ScheduleUnit.days 600 = some r) ∧
    nextDueLoop 600 0 5 0 = none :=
  ⟨le_refl 1, calculateNextDueDate_termination.1 0 600 1 (le_refl 1),
    calculateNextDueDate_termination.2 5⟩

-- ===========================================================================
-- C2: completeMaintenanceAction
-- ===========================================================================

/-- C2 (counterexample): completing the daily action (due at minute 0) with
`completedAt` = minute 0 while the ambient clock is at minute 4320 (day 3)
writes a log whose `was_overdue` flag is `true`, although `isOverdue` of the
pre-completion due date evaluated at `completedAt` is `false`: the flag is
computed against the ambient clock, not against `completedAt`. -/
theorem completeMaintenanceAction_wasOverdue_cex :
    ((completeMaintenanceAction exDbDaily 0 0 none 4320).map
      (fun r => r.1.logs.map (fun log => log.was_overdue))) = some [true] ∧
    isOverdue 0 0 = false := by
  constructor
  · decide
  · decide

/-- C2 (amended): for every action whose id resolves, whose `next_due` is set
and whose frequency is ≥ 1, `completeMaintenanceAction` appends exactly one
log whose `was_overdue` flag equals `isOverdue` of the pre-completion
`next_due` evaluated at the ambient clock `now` (not at `completedAt`), and
persists `last_completed = completedAt` together with a new `next_due`
computed by `calculateNextDueDate` from the pre-completion `next_due` (never
from `completedAt`), stamped with the configured notification time; it
returns the new log's id and the new due date. -/
theorem completeMaintenanceAction_spec (db : DB) (actionId : Nat)
    (completedAt now : Int) (notes : Option String) (a : MaintenanceAction)
    (d : Int)
    (hFind : findAction db.actions actionId = some a)
    (hDue : a.next_due = some d)
    (hf : 1 ≤ a.schedule_frequency) :
    ∃ nd : Int,
      calculateNextDueDate d a.schedule_frequency a.schedule_unit now = some nd ∧
      completeMaintenanceAction db actionId completedAt notes now =
        some ({ components := db.components,
                actions := updateAction db.actions actionId (fun x =>
                  { x with last_completed := some completedAt,
                           next_due := some (applyNotificationTime a.notification_time nd) }),
                logs := db.logs ++ [{ id := db.logs.length,
                                      component_id := a.component_id,
                                      action_id := actionId,
                                      completed_at := completedAt,
                                      was_overdue := isOverdue d now,
                                      notes := notes,
                                      logged_by := LogSource.user }],
                configs := db.configs },
              Except.ok (db.logs.length, applyNotificationTime a.notification_time nd)) := by
  obtain ⟨nd, hnd⟩ := calculateNextDueDate_isSome d a.schedule_frequency a.schedule_unit now hf
  refine ⟨nd, hnd, ?_⟩
  unfold completeMaintenanceAction
  rw [hFind]
  simp only [hDue, Option.getD_some, hnd]

/-- C2 (witness): the completion theorem applied to the daily example action
with `completedAt = now` = minute 4320. -/
theorem completeMaintenanceAction_spec_witness :
    findAction exDbDaily.actions 0 = some exActionDaily ∧
    exActionDaily.next_due = some 0 ∧
    (1 : Int) ≤ exActionDaily.schedule_frequency ∧
    ∃ nd : Int,
      calculateNextDueDate 0 exActionDaily.schedule_frequency
        exActionDaily.schedule_unit 4320 = some nd ∧
      completeMaintenanceAction exDbDaily 0 4320 none 4320 =
        some ({ components := exDbDaily.components,
                actions := updateAction exDbDaily.actions 0 (fun x =>
                  { x with last_completed := some 4320,
                           next_due := some (applyNotificationTime
                             exActionDaily.notification_time nd) }),
                logs := exDbDaily.logs ++ [{ id := exDbDaily.logs.length,
                                             component_id := exActionDaily.component_id,
                                             action_id := 0,
                                             completed_at := 4320,
                                             was_overdue := isOverdue 0 4320,
                                             notes := none,
                                             logged_by := LogSource.user }],
                configs := exDbDaily.configs },
              Except.ok (exDbDaily.logs.length,
                applyNotificationTime exActionDaily.notification_time nd)) :=
  ⟨by decide, by decide, by decide,
    completeMaintenanceAction_spec exDbDaily 0 4320 4320 none exActionDaily 0
      (by decide) (by decide) (by decide)⟩

-- ===========================================================================
-- C5: skipMaintenanceAction
-- ===========================================================================

/-- C5 (counterexample): skipping the stale action (due at minute -7200, five
days in the past, frequency one day) at minute 600 reschedules it to minute
1440 — six cadence steps ahead — not to `-7200 + 1·1440 = -5760`, so the
claim that skip advances `next_due` by exactly one cadence step fails. -/
theorem skipMaintenanceAction_one_step_cex :
    ((skipMaintenanceAction exDbStale 0 600).map
      (fun r => r.1.actions.map (fun a => a.next_due))) = some [some 1440] ∧
    exActionStale.next_due = some (-7200) ∧
    (1440 : Int) ≠ -7200 + 1 * 1440 := by
  refine ⟨by decide, by decide, by decide⟩

/-- C5 (amended): for every action whose id resolves, whose `next_due` is set
and whose frequency is ≥ 1, `skipMaintenanceAction` writes no log (the log
table is returned unchanged) and replaces `next_due` by the result of the same
original-date drift-prevention rule as complete (`calculateNextDueDate` on the
pre-skip `next_due`, then notification-time stamping) — an advance that can be
zero or several cadence steps, not necessarily exactly one. -/
theorem skipMaintenanceAction_spec (db : DB) (actionId : Nat) (now : Int)
    (a : MaintenanceAction) (d : Int)
    (hFind : findAction db.actions actionId = some a)
    (hDue : a.next_due = some d)
    (hf : 1 ≤ a.schedule_frequency) :
    ∃ nd : Int,
      calculateNextDueDate d a.schedule_frequency a.schedule_unit now = some nd ∧
      skipMaintenanceAction db actionId now =
        some ({ components := db.components,
                actions := updateAction db.actions actionId (fun x =>
                  { x with next_due := some (applyNotificationTime
                    a.notification_time nd) }),
                logs := db.logs,
                configs := db.configs },
              Except.ok (applyNotificationTime a.notification_time nd)) := by
  obtain ⟨nd, hnd⟩ := calculateNextDueDate_isSome d a.schedule_frequency a.schedule_unit now hf
  refine ⟨nd, hnd, ?_⟩
  unfold skipMaintenanceAction
  rw [hFind]
  simp only [hDue, Option.getD_some, hnd]

/-- C5 (witness): the skip theorem applied to the stale example action at
minute 600. -/
theorem skipMaintenanceAction_spec_witness :
    findAction exDbStale.actions 0 = some exActionStale ∧
    exActionStale.next_due = some (-7200) ∧
    (1 : Int) ≤ exActionStale.schedule_frequency ∧
    ∃ nd : Int,
      calculateNextDueDate (-7200) exActionStale.schedule_frequency
        exActionStale.schedule_unit 600 = some nd ∧
      skipMaintenanceAction exDbStale 0 600 =
        some ({ components := exDbStale.components,
                actions := updateAction exDbStale.actions 0 (fun x =>
                  { x with next_due := some (applyNotificationTime
                    exActionStale.notification_time nd) }),
                logs := exDbStale.logs,
                configs := exDbStale.configs },
              Except.ok (applyNotificationTime exActionStale.notification_time nd)) :=
  ⟨by decide, by decide, by decide,
    skipMaintenanceAction_spec exDbStale 0 600 exActionStale (-7200)
      (by decide) (by decide) (by decide)⟩

-- ===========================================================================
-- C7: not-found failure semantics of the schedule engine
-- ===========================================================================

/-- C7 (counterexample): `rescheduleMaintenanceAction` performs no existence
check — called with an id that does not resolve it neither fails with a
not-found error nor writes anything: the store is returned unchanged.  This
refutes the claim that every lifecycle operation, reschedule included, fails
with a not-found error on an unresolved id. -/
theorem rescheduleMaintenanceAction_no_failure_cex :
    rescheduleMaintenanceAction exDbDaily 99 1440 = exDbDaily ∧
    findAction exDbDaily.actions 99 = none := by
  constructor
  · decide
  · decide

/-- C7 (amended): complete, skip, snooze, initialize and updateUsage fail
with a not-found error and perform no write whenever the given action or
component id does not resolve; reschedule, by contrast, performs no existence
check: on an unresolved id it does not fail and performs no write (the store
update is a silent no-op). -/
theorem scheduleEngine_notFound_spec (db : DB) (actionId componentId : Nat)
    (completedAt now newDueDate hours usageIncrement : Int) (notes : Option String)
    (hA : findAction db.actions actionId = none)
    (hC : findComponent db.components componentId = none) :
    completeMaintenanceAction db actionId completedAt notes now =
      some (db, Except.error s!"Maintenance action {actionId} not found") ∧
    skipMaintenanceAction db actionId now =
      some (db, Except.error s!"Maintenance action {actionId} not found") ∧
    snoozeMaintenanceAction db actionId hours now =
      (db, Except.error s!"Maintenance action {actionId} not found") ∧
    initializeMaintenanceAction db actionId now =
      (db, Except.error s!"Maintenance action {actionId} not found") ∧
    updateComponentUsage db componentId usageIncrement now =
      (db, Except.error s!"Component {componentId} not found") ∧
    rescheduleMaintenanceAction db actionId newDueDate = db := by
  have hinc : incrementUsage db.components componentId usageIncrement = db.components := by
    unfold incrementUsage
    rw [hC]
  refine ⟨?_, ?_, ?_, ?_, ?_, ?_⟩
  · unfold completeMaintenanceAction
    rw [hA]
  · unfold skipMaintenanceAction
    rw [hA]
  · unfold snoozeMaintenanceAction
    rw [hA]
  · unfold initializeMaintenanceAction
    rw [hA]
  · unfold updateComponentUsage
    simp only [hinc]
    rw [hC]
  · unfold rescheduleMaintenanceAction
    rw [updateAction_not_found db.actions actionId _ hA]

/-- C7 (witness): the not-found theorem applied to the daily example store
with the unresolved id 99. -/
theorem scheduleEngine_notFound_spec_witness :
    findAction exDbDaily.actions 99 = none ∧
    findComponent exDbDaily.components 99 = none ∧
    (completeMaintenanceAction exDbDaily 99 0 none 0 =
      some (exDbDaily, Except.error s!"Maintenance action {(99 : Nat)} not found") ∧
    skipMaintenanceAction exDbDaily 99 0 =
      some (exDbDaily, Except.error s!"Maintenance action {(99 : Nat)} not found") ∧
    snoozeMaintenanceAction exDbDaily 99 4 0 =
      (exDbDaily, Except.error s!"Maintenance action {(99 : Nat)} not found") ∧
    initializeMaintenanceAction exDbDaily 99 0 =
      (exDbDaily, Except.error s!"Maintenance action {(99 : Nat)} not found") ∧
    updateComponentUsage exDbDaily 99 1 0 =
      (exDbDaily, Except.error s!"Component {(99 : Nat)} not found") ∧
    rescheduleMaintenanceAction exDbDaily 99 1440 = exDbDaily) :=
  ⟨by decide, by decide,
    scheduleEngine_notFound_spec exDbDaily 99 99 0 0 1440 4 1 none
      (by decide) (by decide)⟩

-- ===========================================================================
-- C8: compliance percentage
-- ===========================================================================

lemma complianceFold_eq (days : Nat) :
    ∀ (actions : List MaintenanceAction) (acc : Nat),
    (∀ a ∈ actions, 1 ≤ a.schedule_frequency) →
    actions.foldl (fun acc action =>
      if action.schedule_unit = ScheduleUnit.days ∧ 0 < action.schedule_frequency then
        acc + max 1 (days / action.schedule_frequency.toNat)
      else acc) acc =
    actions.foldl (fun acc action =>
      if action.schedule_unit = ScheduleUnit.days then
        acc + max 1 (days / action.schedule_frequency.toNat)
      else acc) acc := by
  intro actions
  induction actions with
  | nil => intro acc _; rfl
  | cons a as ih =>
    intro acc h
    have ha : 1 ≤ a.schedule_frequency := h a (by simp)
    simp only [List.foldl_cons]
    rw [if_congr (Iff.intro (fun hcond => hcond.1) (fun h1 => ⟨h1, by omega⟩)) rfl rfl]
    exact ih _ (fun x hx => h x (List.mem_cons_of_mem a hx))

/-- C8: for every lookback window of N ≥ 1 days over actions with positive
frequency, the compliance percentage of the `useCompliancePercentage` hook
equals `round(100 × completed / required)` capped at 100, where `required` is
the sum over calendar-unit actions of `max(1, floor(N / frequency))`
(`requiredCountSpec`, the specification's formula), `completed` is the number
of logs inside the window, and the result defaults to 100 when `required` is
0. -/
theorem useCompliancePercentage_spec (days : Nat) (logs : List MaintenanceLog)
    (actions : List MaintenanceAction) (now : Int)
    (_hdays : 1 ≤ days)
    (hfreq : ∀ a ∈ actions, 1 ≤ a.schedule_frequency) :
    useCompliancePercentage days logs actions now =
      (if requiredCountSpec days actions = 0 then 100
       else min 100 (jsRound (100 * (logs.filter (fun log =>
         decide (now - (days : Int) * 1440 ≤ log.completed_at) &&
         decide (log.completed_at ≤ now))).length) (requiredCountSpec days actions))) := by
  unfold useCompliancePercentage requiredCountSpec
  dsimp only
  rw [complianceFold_eq days actions 0 hfreq]

/-- C8 (witness): the compliance theorem applied to a 30-day window over the
daily example action with no logs. -/
theorem useCompliancePercentage_spec_witness :
    1 ≤ 30 ∧ (∀ a ∈ [exActionDaily], 1 ≤ a.schedule_frequency) ∧
    useCompliancePercentage 30 [] [exActionDaily] 43200 =
      (if requiredCountSpec 30 [exActionDaily] = 0 then 100
       else min 100 (jsRound (100 * (List.filter (fun log =>
         decide ((43200 : Int) - ((30 : Nat) : Int) * 1440 ≤ log.completed_at) &&
         decide (log.completed_at ≤ (43200 : Int))) ([] : List MaintenanceLog)).length)
         (requiredCountSpec 30 [exActionDaily]))) :=
  ⟨by norm_num, by decide,
    useCompliancePercentage_spec 30 [] [exActionDaily] 43200 (by norm_num) (by decide)⟩

-- ===========================================================================
-- C6: getActionsNeedingAttention
-- ===========================================================================

lemma insertIntoSorted_perm {α : Type} (le : α → α → Bool) (x : α) :
    ∀ l : List α, (insertIntoSorted le x l).Perm (x :: l)
  | [] => List.Perm.refl _
  | y :: ys => by
    unfold insertIntoSorted
    by_cases h : le x y = true
    · rw [if_pos h]
    · rw [if_neg h]
      exact ((insertIntoSorted_perm le x ys).cons y).trans (List.Perm.swap x y ys)

lemma mem_insertIntoSorted {α : Type} (le : α → α → Bool) (x : α) (l : List α)
    (y : α) : y ∈ insertIntoSorted le x l ↔ y = x ∨ y ∈ l := by
  rw [(insertIntoSorted_perm le x l).mem_iff]
  simp

lemma pairwise_insertIntoSorted {α : Type} (le : α → α → Bool) (P : α → Prop)
    (htrans : ∀ a b c, P a → P b → P c → le a b = true → le b c = true → le a c = true)
    (htotal : ∀ a b, le a b = true ∨ le b a = true) (x : α) (hx : P x) :
    ∀ l : List α, (∀ y ∈ l, P y) →
    List.Pairwise (fun a b => le a b = true) l →
    List.Pairwise (fun a b => le a b = true) (insertIntoSorted le x l) := by
  intro l
  induction l with
  | nil => intro _ _; simp [insertIntoSorted]
  | cons y ys ih =>
    intro hl hp
    have hy := List.pairwise_cons.mp hp
    unfold insertIntoSorted
    by_cases h : le x y = true
    · rw [if_pos h]
      refine List.Pairwise.cons ?_ hp
      intro z hz
      rcases List.mem_cons.mp hz with rfl | hz'
      · exact h
      · exact htrans x y z hx (hl y (by simp)) (hl z (by simp [hz'])) h (hy.1 z hz')
    · rw [if_neg h]
      have hyx : le y x = true := (htotal x y).resolve_left h
      refine List.Pairwise.cons ?_ (ih (fun z hz => hl z (by simp [hz])) hy.2)
      intro z hz
      rcases (mem_insertIntoSorted le x ys z).mp hz with rfl | hz'
      · exact hyx
      · exact hy.1 z hz'

lemma insertionSortBy_perm {α : Type} (le : α → α → Bool) :
    ∀ l : List α, (insertionSortBy le l).Perm l
  | [] => List.Perm.refl _
  | x :: xs =>
    (insertIntoSorted_perm le x (insertionSortBy le xs)).trans
      ((insertionSortBy_perm le xs).cons x)

lemma pairwise_insertionSortBy {α : Type} (le : α → α → Bool) (P : α → Prop)
    (htrans : ∀ a b c, P a → P b → P c → le a b = true → le b c = true → le a c = true)
    (htotal : ∀ a b, le a b = true ∨ le b a = true) :
    ∀ l : List α, (∀ y ∈ l, P y) →
    List.Pairwise (fun a b => le a b = true) (insertionSortBy le l) := by
  intro l
  induction l with
  | nil => intro _; simp [insertionSortBy]
  | cons x xs ih =>
    intro hl
    unfold insertionSortBy
    refine pairwise_insertIntoSorted le P htrans htotal x (hl x (by simp)) _
      (fun y hy => hl y (List.mem_cons_of_mem x
        (((insertionSortBy_perm le xs).mem_iff).mp hy)))
      (ih (fun y hy => hl y (List.mem_cons_of_mem x hy)))

lemma attentionLE_total (now : Int) (a b : MaintenanceAction) :
    attentionLE now a b = true ∨ attentionLE now b a = true := by
  unfold attentionLE
  cases hda : a.next_due with
  | none => cases hdb : b.next_due <;> simp
  | some da =>
    cases hdb : b.next_due with
    | none => simp
    | some dbv =>
      by_cases h1 : isOverdue da now <;> by_cases h2 : isOverdue dbv now <;>
        simp [h1, h2] <;> omega

lemma attentionLE_trans (now : Int) (a b c : MaintenanceAction)
    (ha : a.next_due.isSome = true) (hb : b.next_due.isSome = true)
    (hc : c.next_due.isSome = true) :
    attentionLE now a b = true → attentionLE now b c = true →
    attentionLE now a c = true := by
  unfold attentionLE
  cases hda : a.next_due with
  | none => rw [hda] at ha; simp at ha
  | some da =>
    cases hdb : b.next_due with
    | none => rw [hdb] at hb; simp at hb
    | some dbv =>
      cases hdc : c.next_due with
      | none => rw [hdc] at hc; simp at hc
      | some dcv =>
        by_cases h1 : isOverdue da now <;> by_cases h2 : isOverdue dbv now <;>
          by_cases h3 : isOverdue dcv now <;> simp [h1, h2, h3] <;> omega

lemma needsAttention_isSome (a : MaintenanceAction) (now : Int)
    (h : needsAttention a now = true) : a.next_due.isSome = true := by
  unfold needsAttention at h
  cases hd : a.next_due with
  | none => rw [hd] at h; simp at h
  | some d => simp

lemma attentionLE_implies_priority (now : Int) (a b : MaintenanceAction)
    (h : attentionLE now a b = true) : attentionPriority now a b := by
  intro da dbv hda hdb
  unfold attentionLE at h
  rw [hda, hdb] at h
  by_cases h1 : isOverdue da now <;> by_cases h2 : isOverdue dbv now <;>
    simp [h1, h2] at h ⊢ <;>
    simp only [hoursOverdueAt] at * <;> omega

/-- C6 (counterexample): the inactive example store pairs a due action with a
soft-deleted owning component, yet `getActionsNeedingAttention` still returns
the action: the function filters only on `next_due ≤ now` and consults
neither the component's active flag nor any notification config.  This
refutes the claimed filtering. -/
theorem getActionsNeedingAttention_unfiltered_cex :
    getActionsNeedingAttention exDbInactive 600 = [exActionDaily] ∧
    exComponentInactive.is_active = false ∧
    exActionDaily.component_id = exComponentInactive.id ∧
    exDbInactive.components = [exComponentInactive] := by
  refine ⟨by decide, by decide, by decide, by decide⟩

/-- C6 (amended): `getActionsNeedingAttention` returns exactly the actions
whose `next_due` is set and at or before `now` — with no filtering on the
owning component's active flag or on notification configs — as a permutation
of that filtered list, ordered overdue items first and, within a bucket, by
ascending due date; this refines the claimed ordering (largest hours-overdue
first, ties broken by ascending due date), which holds pairwise on the
output. -/
theorem getActionsNeedingAttention_spec (db : DB) (now : Int) :
    (getActionsNeedingAttention db now).Perm
      (db.actions.filter (fun a => needsAttention a now)) ∧
    List.Pairwise (fun a b => attentionLE now a b = true)
      (getActionsNeedingAttention db now) ∧
    List.Pairwise (attentionPriority now) (getActionsNeedingAttention db now) := by
  have hmem : ∀ y ∈ db.actions.filter (fun a => needsAttention a now),
      y.next_due.isSome = true := by
    intro y hy
    exact needsAttention_isSome y now (List.mem_filter.mp hy).2
  have hperm := insertionSortBy_perm (attentionLE now)
    (db.actions.filter (fun a => needsAttention a now))
  have hpair := pairwise_insertionSortBy (attentionLE now)
    (fun x => x.next_due.isSome = true)
    (fun a b c ha hb hc => attentionLE_trans now a b c ha hb hc)
    (attentionLE_total now)
    (db.actions.filter (fun a => needsAttention a now)) hmem
  exact ⟨hperm, hpair, hpair.imp (fun hab => attentionLE_implies_priority now _ _ hab)⟩

-- ===========================================================================
-- C9: single-daily escalation fires at most once per calendar day
-- ===========================================================================

lemma getReminderCount_eq_onDay (records : List ShownNotificationRecord)
    (now : Int) (actionId : Nat) :
    getReminderCount records now actionId =
      reminderCountOnDay records (dayOf now) actionId := rfl

lemma foundCount_setFirst_self (actionId : Nat) (now : Int) (count : Nat) :
    ∀ l : List ShownNotificationRecord,
    foundCount (setFirstRecord actionId now count l) actionId = count
  | [] => by
    simp only [setFirstRecord]
    unfold foundCount
    rw [List.find?_cons_of_pos _ (by simp)]
  | r :: rs => by
    by_cases h : r.actionId = actionId
    · simp only [setFirstRecord]
      rw [if_pos h]
      unfold foundCount
      rw [List.find?_cons_of_pos _ (by simp [h])]
    · simp only [setFirstRecord]
      rw [if_neg h]
      unfold foundCount
      rw [List.find?_cons_of_neg _ (by simp [h])]
      exact foundCount_setFirst_self actionId now count rs

lemma foundCount_setFirst_other (actionId otherId : Nat) (now : Int) (count : Nat)
    (hne : otherId ≠ actionId) :
    ∀ l : List ShownNotificationRecord,
    foundCount (setFirstRecord otherId now count l) actionId = foundCount l actionId
  | [] => by
    simp only [setFirstRecord]
    unfold foundCount
    rw [List.find?_cons_of_neg _ (by simp [hne])]
  | r :: rs => by
    by_cases h : r.actionId = otherId
    · simp only [setFirstRecord]
      rw [if_pos h]
      unfold foundCount
      have hr : ¬ r.actionId = actionId := by rw [h]; exact hne
      rw [List.find?_cons_of_neg _ (by simp [hr]),
        List.find?_cons_of_neg _ (by simp [hr])]
    · simp only [setFirstRecord]
      rw [if_neg h]
      unfold foundCount
      by_cases hr : r.actionId = actionId
      · rw [List.find?_cons_of_pos _ (by simp [hr]),
          List.find?_cons_of_pos _ (by simp [hr])]
      · rw [List.find?_cons_of_neg _ (by simp [hr]),
          List.find?_cons_of_neg _ (by simp [hr])]
        exact foundCount_setFirst_other actionId otherId now count hne rs

lemma mem_setFirstRecord_day (actionId : Nat) (now : Int) (count : Nat) (D : Int)
    (hD : dayOf now = D) :
    ∀ l : List ShownNotificationRecord, (∀ r ∈ l, dayOf r.shownAt = D) →
    ∀ r ∈ setFirstRecord actionId now count l, dayOf r.shownAt = D
  | [] => by
    intro _ r hr
    simp only [setFirstRecord, List.mem_singleton] at hr
    subst hr
    exact hD
  | x :: xs => by
    intro hl r hr
    by_cases h : x.actionId = actionId
    · rw [show setFirstRecord actionId now count (x :: xs) =
          { x with reminderCount := count, shownAt := now } :: xs from by
            simp only [setFirstRecord]; rw [if_pos h]] at hr
      rcases List.mem_cons.mp hr with heq | hr'
      · rw [heq]; exact hD
      · exact hl r (List.mem_cons_of_mem x hr')
    · rw [show setFirstRecord actionId now count (x :: xs) =
          x :: setFirstRecord actionId now count xs from by
            simp only [setFirstRecord]; rw [if_neg h]] at hr
      rcases List.mem_cons.mp hr with heq | hr'
      · rw [heq]; exact hl x (List.mem_cons_self x xs)
      · exact mem_setFirstRecord_day actionId now count D hD xs
          (fun y hy => hl y (List.mem_cons_of_mem x hy)) r hr'

lemma mem_getShownNotifications_day (records : List ShownNotificationRecord)
    (now : Int) (r : ShownNotificationRecord)
    (hr : r ∈ getShownNotifications records now) : dayOf r.shownAt = dayOf now := by
  have h := (List.mem_filter.mp hr).2
  simpa [isToday] using h

lemma filter_day_recordShown (records : List ShownNotificationRecord) (now : Int)
    (otherId : Nat) (count : Nat) (D : Int) (hD : dayOf now = D) :
    (recordNotificationShown records now otherId count).filter
        (fun r => decide (dayOf r.shownAt = D)) =
      recordNotificationShown records now otherId count := by
  apply List.filter_eq_self.mpr
  intro r hr
  have hday := mem_setFirstRecord_day otherId now count D hD
    (getShownNotifications records now)
    (fun y hy => by rw [mem_getShownNotifications_day records now y hy]; exact hD)
    r hr
  simpa using hday

lemma reminderCountOnDay_recordShown_self (records : List ShownNotificationRecord)
    (now : Int) (actionId : Nat) (count : Nat) (D : Int) (hD : dayOf now = D) :
    reminderCountOnDay (recordNotificationShown records now actionId count) D
      actionId = count := by
  unfold reminderCountOnDay
  rw [filter_day_recordShown records now actionId count D hD]
  exact foundCount_setFirst_self actionId now count _

lemma reminderCountOnDay_recordShown_other (records : List ShownNotificationRecord)
    (now : Int) (actionId otherId : Nat) (count : Nat) (D : Int)
    (hne : otherId ≠ actionId) (hD : dayOf now = D) :
    reminderCountOnDay (recordNotificationShown records now otherId count) D
        actionId =
      reminderCountOnDay records D actionId := by
  unfold reminderCountOnDay
  rw [filter_day_recordShown records now otherId count D hD]
  rw [show recordNotificationShown records now otherId count =
      setFirstRecord otherId now count (getShownNotifications records now) from rfl]
  rw [foundCount_setFirst_other actionId otherId now count hne]
  subst hD
  rfl

lemma shouldShowReminder_single_daily (item : DueItem) (c : Nat)
    (hstrat : effectiveEscalationStrategy item = EscalationStrategy.single_daily)
    (h : shouldShowReminder item c = true) : c = 0 := by
  unfold shouldShowReminder at h
  rw [hstrat] at h
  simpa using h

lemma checkAndNotifyItems_cons_fire (now : Int) (item : DueItem)
    (rest : List (DueItem × Bool)) (records : List ShownNotificationRecord)
    (hshow : shouldShowReminder item
      (getReminderCount records now item.action.id) = true) :
    (checkAndNotifyItems now ((item, true) :: rest) records).1 =
      item.action.id :: (checkAndNotifyItems now rest
        (recordNotificationShown records now item.action.id
          (getReminderCount records now item.action.id + 1))).1 ∧
    (checkAndNotifyItems now ((item, true) :: rest) records).2 =
      (checkAndNotifyItems now rest
        (recordNotificationShown records now item.action.id
          (getReminderCount records now item.action.id + 1))).2 := by
  constructor <;>
    (simp only [checkAndNotifyItems]; rw [if_pos hshow, if_pos trivial])

lemma checkAndNotifyItems_cons_notshown (now : Int) (item : DueItem)
    (rest : List (DueItem × Bool)) (records : List ShownNotificationRecord)
    (hshow : shouldShowReminder item
      (getReminderCount records now item.action.id) = true) :
    checkAndNotifyItems now ((item, false) :: rest) records =
      checkAndNotifyItems now rest records := by
  simp only [checkAndNotifyItems]
  rw [if_pos hshow, if_neg Bool.false_ne_true]

lemma checkAndNotifyItems_cons_noshow (now : Int) (item : DueItem) (shown : Bool)
    (rest : List (DueItem × Bool)) (records : List ShownNotificationRecord)
    (h : shouldShowReminder item
      (getReminderCount records now item.action.id) = false) :
    checkAndNotifyItems now ((item, shown) :: rest) records =
      checkAndNotifyItems now rest records := by
  simp only [checkAndNotifyItems]
  rw [if_neg (by rw [h]; exact Bool.false_ne_true)]

lemma checkAndNotifyItems_bound (actionId : Nat) (D now : Int) (hD : dayOf now = D) :
    ∀ (items : List (DueItem × Bool)) (records : List ShownNotificationRecord),
    (∀ p ∈ items, p.1.action.id = actionId →
      effectiveEscalationStrategy p.1 = EscalationStrategy.single_daily) →
    List.count actionId (checkAndNotifyItems now items records).1 +
      min 1 (reminderCountOnDay records D actionId) ≤
    min 1 (reminderCountOnDay (checkAndNotifyItems now items records).2 D actionId) := by
  intro items
  induction items with
  | nil =>
    intro records _
    simp [checkAndNotifyItems]
  | cons p rest ih =>
    intro records hstrat
    obtain ⟨item, shown⟩ := p
    have hrest : ∀ p ∈ rest, p.1.action.id = actionId →
        effectiveEscalationStrategy p.1 = EscalationStrategy.single_daily :=
      fun p hp => hstrat p (List.mem_cons_of_mem _ hp)
    by_cases hshow : shouldShowReminder item
        (getReminderCount records now item.action.id) = true
    · cases shown with
      | false =>
        rw [checkAndNotifyItems_cons_notshown now item rest records hshow]
        exact ih records hrest
      | true =>
        have hfire := checkAndNotifyItems_cons_fire now item rest records hshow
        rw [hfire.1, hfire.2]
        by_cases hid : item.action.id = actionId
        · subst hid
          have hc0 : getReminderCount records now item.action.id = 0 :=
            shouldShowReminder_single_daily item _
              (hstrat (item, true) (List.mem_cons_self _ _) rfl) hshow
          have hrc0 : reminderCountOnDay records D item.action.id = 0 := by
            rw [← hD, ← getReminderCount_eq_onDay]
            exact hc0
          have hrc2 := reminderCountOnDay_recordShown_self records now item.action.id
            (getReminderCount records now item.action.id + 1) D hD
          have hih := ih (recordNotificationShown records now item.action.id
            (getReminderCount records now item.action.id + 1)) hrest
          rw [List.count_cons_self]
          omega
        · have hne : item.action.id ≠ actionId := hid
          have hrc2 := reminderCountOnDay_recordShown_other records now actionId
            item.action.id (getReminderCount records now item.action.id + 1) D hne hD
          have hih := ih (recordNotificationShown records now item.action.id
            (getReminderCount records now item.action.id + 1)) hrest
          rw [List.count_cons_of_ne (Ne.symm hne)]
          omega
    · have hshowf : shouldShowReminder item
          (getReminderCount records now item.action.id) = false := by
        revert hshow
        cases shouldShowReminder item (getReminderCount records now item.action.id) <;> simp
      rw [checkAndNotifyItems_cons_noshow now item shown rest records hshowf]
      exact ih records hrest

lemma runCheckCycles_bound (actionId : Nat) (D : Int) :
    ∀ (cycles : List (Int × List (DueItem × Bool)))
      (records : List ShownNotificationRecord),
    (∀ c ∈ cycles, dayOf c.1 = D) →
    (∀ c ∈ cycles, ∀ p ∈ c.2, p.1.action.id = actionId →
      effectiveEscalationStrategy p.1 = EscalationStrategy.single_daily) →
    List.count actionId (runCheckCycles cycles records).1 +
      min 1 (reminderCountOnDay records D actionId) ≤
    min 1 (reminderCountOnDay (runCheckCycles cycles records).2 D actionId) := by
  intro cycles
  induction cycles with
  | nil =>
    intro records _ _
    simp [runCheckCycles]
  | cons c rest ih =>
    intro records hday hstrat
    obtain ⟨t, items⟩ := c
    have hD : dayOf t = D := hday (t, items) (List.mem_cons_self _ _)
    have h1 := checkAndNotifyItems_bound actionId D t hD items records
      (fun p hp => hstrat (t, items) (List.mem_cons_self _ _) p hp)
    have h2 := ih (checkAndNotifyItems t items records).2
      (fun x hx => hday x (List.mem_cons_of_mem _ hx))
      (fun x hx => hstrat x (List.mem_cons_of_mem _ hx))
    simp only [runCheckCycles]
    rw [List.count_append]
    omega

/-- C9: for an action whose due items always resolve to the single-daily
escalation strategy (the effective strategy of `reminder_strategy = gentle`
when no notification config overrides it), at most one reminder notification
fires per calendar day, no matter how many check cycles run within the day or
what the shown-notification records initially contain: a reminder fires only
when the reminders-fired-today counter is 0, and writing the fired record
keeps the counter positive for the rest of the day (it resets only at day
boundaries, via the today-filter of the record store). -/
theorem singleDaily_at_most_one_reminder_per_day (actionId : Nat) (D : Int)
    (cycles : List (Int × List (DueItem × Bool)))
    (records : List ShownNotificationRecord)
    (hday : ∀ c ∈ cycles, dayOf c.1 = D)
    (hstrat : ∀ c ∈ cycles, ∀ p ∈ c.2, p.1.action.id = actionId →
      effectiveEscalationStrategy p.1 = EscalationStrategy.single_daily) :
    List.count actionId (runCheckCycles cycles records).1 ≤ 1 := by
  have h := runCheckCycles_bound actionId D cycles records hday hstrat
  have hle : min 1 (reminderCountOnDay (runCheckCycles cycles records).2 D actionId)
      ≤ 1 := min_le_left _ _
  omega

/-- C9 (witness): two same-day check cycles over the gentle example due item,
starting from empty records; the theorem bounds the fired count by one. -/
theorem singleDaily_at_most_one_reminder_per_day_witness :
    (∀ c ∈ [((100 : Int), [(exDueItemGentle, true)]),
            ((700 : Int), [(exDueItemGentle, true)])], dayOf c.1 = 0) ∧
    (∀ c ∈ [((100 : Int), [(exDueItemGentle, true)]),
            ((700 : Int), [(exDueItemGentle, true)])],
      ∀ p ∈ c.2, p.1.action.id = 0 →
        effectiveEscalationStrategy p.1 = EscalationStrategy.single_daily) ∧
    List.count 0 (runCheckCycles
      [((100 : Int), [(exDueItemGentle, true)]),
       ((700 : Int), [(exDueItemGentle, true)])] []).1 ≤ 1 :=
  ⟨by decide, by decide,
    singleDaily_at_most_one_reminder_per_day 0 0
      [((100 : Int), [(exDueItemGentle, true)]),
       ((700 : Int), [(exDueItemGentle, true)])] [] (by decide) (by decide)⟩
